import Mathlib

/-!
Verification development for the ESL Vocabulary Explorer assessment/quiz core.

This file gives a shallow embedding of the client-side assessment engine
(`shuffleArray`, `generateAssessmentFromTerms`, the batch grader of
`handleSubmit`, and the `QuizModal` session state machine) and proves the
testable properties stated in the specification.

Modelling conventions:
- JavaScript arrays become `List`s; JS objects used as string-keyed maps become
  association lists with unique keys, looked up with `List.lookup`.
- `Math.random()` is abstracted: every call site of `shuffleArray` receives its
  own random source `rand : Nat → Nat`; inside one shuffle the draw made when
  the loop counter is `k` is `rand k % k`, which ranges over `[0, k)` exactly as
  `Math.floor(Math.random() * k)` does.  Universally quantifying over `rand`
  covers every possible run.
- Code paths that throw a JS `TypeError` (e.g. `term.meanings[0].definition`
  when `meanings` is empty) are modelled with `Except String`.
-/

/-- One part-of-speech/definition pairing of a term (types.ts `Meaning`). -/
structure Meaning where
  partOfSpeech : String
  definition : String
deriving DecidableEq, Repr

/-- Explored details of a term.  Only the `examples` field is consumed by the
assessment engine; the remaining fields of types.ts `Details` are irrelevant
to the verified code paths and are omitted. -/
structure Details where
  examples : List String
deriving DecidableEq, Repr

/-- A vocabulary entry (types.ts `TermData`).  The JS field
`details?: { [key: number]: Details }` is a numerically keyed object accessed
only at key 0; it is modelled as an optional association list. -/
structure TermData where
  term : String
  meanings : List Meaning
  details : Option (List (Nat × Details)) := none
deriving DecidableEq, Repr

/-- types.ts `MatchItem`. -/
structure MatchItem where
  id : String
  term : String
deriving DecidableEq, Repr

/-- types.ts `MatchTarget`. -/
structure MatchTarget where
  id : String
  definition : String
deriving DecidableEq, Repr

/-- The tagged union types.ts `AssessmentQuestion` (4 variants).  `correctPairs`
is the JS object `{ [itemId: string]: string }` as an association list. -/
inductive AssessmentQuestion where
  | mcq (id : String) (question : String) (options : List String)
      (correctAnswer : String)
  | fillBlank (id : String) (sentence : String) (correctAnswer : String)
  | matchQ (id : String) (instruction : String) (items : List MatchItem)
      (targets : List MatchTarget) (correctPairs : List (String × String))
  | written (id : String) (prompt : String) (modelAnswer : String)
deriving DecidableEq, Repr

/-- The `id` field shared by all four question variants. -/
def AssessmentQuestion.qid : AssessmentQuestion → String
  | .mcq i _ _ _ => i
  | .fillBlank i _ _ => i
  | .matchQ i _ _ _ _ => i
  | .written i _ _ => i

/-- types.ts `AssessmentData`. -/
structure AssessmentData where
  title : String
  questions : List AssessmentQuestion
deriving DecidableEq, Repr

/-- One iteration of the Fisher-Yates loop body: swap the elements at
positions `i` and `j` (`[newArray[i], newArray[j]] = [newArray[j],
newArray[i]]`).  Out-of-range indices leave the list unchanged (they never
occur in the actual loop). -/
def listSwap (l : List α) (i j : Nat) : List α :=
  match l[i]?, l[j]? with
  | some x, some y => (l.set i y).set j x
  | _, _ => l

/-- The `while (currentIndex !== 0)` loop of `shuffleArray`: with loop counter
`k + 1` the code draws `randomIndex = Math.floor(Math.random() * (k + 1))`,
decrements the counter to `k` and swaps positions `k` and `randomIndex`. -/
def fyLoop (rand : Nat → Nat) : Nat → List α → List α
  | 0, l => l
  | k + 1, l => fyLoop rand k (listSwap l k (rand (k + 1) % (k + 1)))

/-- `shuffleArray` (part_003 lines 7-16): copies the input (`[...array]`, so
the input is never mutated) and runs the Fisher-Yates loop starting with
`currentIndex = array.length`. -/
def shuffleArray (rand : Nat → Nat) (l : List α) : List α :=
  fyLoop rand l.length l

theorem set_get_self (l : List α) (i : Nat) (h : i < l.length) :
    l.set i (l.get ⟨i, h⟩) = l := by
  induction l generalizing i with
  | nil => simp at h
  | cons a t ih =>
    cases i with
    | zero => simp
    | succ n => simpa using ih n (by simpa using h)

theorem head_swap_perm (t : List α) (m : Nat) (h : m < t.length) (a : α) :
    List.Perm (t.get ⟨m, h⟩ :: t.set m a) (a :: t) := by
  induction t generalizing m with
  | nil => simp at h
  | cons b u ih =>
    cases m with
    | zero => simpa using List.Perm.swap a b u
    | succ k =>
      have hk : k < u.length := by simpa using h
      have step := ih k hk
      have s1 : List.Perm (u.get ⟨k, hk⟩ :: b :: u.set k a)
          (b :: u.get ⟨k, hk⟩ :: u.set k a) := List.Perm.swap b _ _
      have s2 : List.Perm (b :: u.get ⟨k, hk⟩ :: u.set k a) (b :: a :: u) :=
        List.Perm.cons b step
      have s3 : List.Perm (b :: a :: u) (a :: b :: u) := List.Perm.swap a b u
      simpa using (s1.trans s2).trans s3

theorem set_set_swap_perm (l : List α) (i j : Nat) (hij : i < j)
    (hj : j < l.length) :
    List.Perm ((l.set i (l.get ⟨j, hj⟩)).set j
      (l.get ⟨i, Nat.lt_trans hij hj⟩)) l := by
  induction l generalizing i j with
  | nil => simp at hj
  | cons a t ih =>
    cases i with
    | zero =>
      cases j with
      | zero => exact absurd hij (by omega)
      | succ m =>
        have hm : m < t.length := by simpa using hj
        simpa using head_swap_perm t m hm a
    | succ n =>
      cases j with
      | zero => exact absurd hij (by omega)
      | succ m =>
        have hm : m < t.length := by simpa using hj
        have hnm : n < m := by omega
        simpa using List.Perm.cons a (ih n m hnm hm)

theorem listSwap_perm (l : List α) (i j : Nat) :
    List.Perm (listSwap l i j) l := by
  unfold listSwap
  cases hx : l[i]? with
  | none => cases l[j]? <;> exact List.Perm.refl l
  | some x =>
    cases hy : l[j]? with
    | none => exact List.Perm.refl l
    | some y =>
      obtain ⟨hi, hxv⟩ := List.getElem?_eq_some_iff.mp hx
      obtain ⟨hj, hyv⟩ := List.getElem?_eq_some_iff.mp hy
      show List.Perm ((l.set i y).set j x) l
      rcases Nat.lt_trichotomy i j with hlt | heq | hgt
      · have := set_set_swap_perm l i j hlt hj
        simpa [List.get_eq_getElem, hxv, hyv] using this
      · subst heq
        have hxy : x = y := by rw [← hxv, ← hyv]
        subst hxy
        rw [List.set_set]
        have hself := set_get_self l i hi
        simp only [List.get_eq_getElem] at hself
        rw [hxv] at hself
        rw [hself]
      · have hcomm : (l.set i y).set j x = (l.set j x).set i y :=
          List.set_comm _ _ _ (by omega)
        rw [hcomm]
        have := set_set_swap_perm l j i hgt hi
        simpa [List.get_eq_getElem, hxv, hyv] using this

theorem fyLoop_perm (rand : Nat → Nat) (k : Nat) (l : List α) :
    List.Perm (fyLoop rand k l) l := by
  induction k generalizing l with
  | zero => exact List.Perm.refl l
  | succ n ih =>
    exact List.Perm.trans (ih _) (listSwap_perm l n (rand (n + 1) % (n + 1)))

theorem shuffleArray_perm (rand : Nat → Nat) (l : List α) :
    List.Perm (shuffleArray rand l) l :=
  fyLoop_perm rand l.length l

theorem shuffleArray_length (rand : Nat → Nat) (l : List α) :
    (shuffleArray rand l).length = l.length :=
  (shuffleArray_perm rand l).length_eq

theorem shuffleArray_mem (rand : Nat → Nat) (l : List α) (a : α) :
    a ∈ shuffleArray rand l ↔ a ∈ l :=
  (shuffleArray_perm rand l).mem_iff

/-- Remove every (leftmost, non-overlapping) occurrence of the two-character
sequence `**`, i.e. the JS `example.replace(/\*\*/g, '')`. -/
def stripStars : List Char → List Char
  | '*' :: '*' :: rest => stripStars rest
  | c :: rest => c :: stripStars rest
  | [] => []

/-- Does `s` start with `pat`, comparing characters case-insensitively
(the `i` flag of the JS regex)? -/
def ciStarts : List Char → List Char → Bool
  | [], _ => true
  | _ :: _, [] => false
  | p :: ps, c :: cs => p.toLower == c.toLower && ciStarts ps cs

/-- Fuel-driven worker for `ciReplace`; the fuel is an upper bound on the
input length, so it never runs out on the initial call. -/
def ciReplaceFuel (pat rep : List Char) : Nat → List Char → List Char
  | 0, s => s
  | _ + 1, [] => []
  | fuel + 1, c :: rest =>
    if pat ≠ [] && ciStarts pat (c :: rest) then
      rep ++ ciReplaceFuel pat rep fuel ((c :: rest).drop pat.length)
    else
      c :: ciReplaceFuel pat rep fuel rest

/-- Replace every case-insensitive, leftmost non-overlapping occurrence of
`pat` by `rep`: the JS `.replace(new RegExp(pat, 'ig'), rep)` for a pattern
without regex metacharacters (term texts are plain words).  An empty pattern
performs no replacement (the JS empty regex inserts at every position; no term
has empty text). -/
def ciReplace (pat rep s : List Char) : List Char :=
  ciReplaceFuel pat rep s.length s

/-- Build the fill-in-the-blank sentence (part_003 line 63):
`example.replace(/\*\*/g, '').replace(new RegExp(term.term, 'ig'), '_____')`. -/
def fillSentence (termText ex : String) : String :=
  String.mk (ciReplace termText.data "_____".data (stripStars ex.data))

/-- The JS expression `t.meanings[0]`: throws a `TypeError` downstream (via
`.definition`) when `meanings` is empty. -/
def jsMeaning0 (t : TermData) : Except String Meaning :=
  match t.meanings with
  | [] => Except.error "TypeError: cannot read properties of undefined"
  | m :: _ => Except.ok m

/-- The JS expression `term.details?.[0]?.examples?.[0]` followed by the
truthiness tests applied to it (`if (example)` / `example || …`): an absent
chain or an empty first example both behave as "no example". -/
def jsExample0 (t : TermData) : Option String :=
  match t.details.bind (fun ds => (ds.lookup 0).map (fun d => d.examples)) with
  | none => none
  | some exs =>
    match exs.head? with
    | none => none
    | some e => if e = "" then none else some e

/-- Item records of the match question (part_003 line 25):
`matchTerms.map((t, i) => ({ id: `item-${i}`, term: t.term }))`. -/
def matchItemsFrom : Nat → List TermData → List MatchItem
  | _, [] => []
  | i, t :: ts => ⟨"item-" ++ toString i, t.term⟩ :: matchItemsFrom (i + 1) ts

/-- Target records of the match question (part_003 line 26), from the already
extracted definitions. -/
def matchTargetsFrom : Nat → List String → List MatchTarget
  | _, [] => []
  | i, d :: ds => ⟨"target-" ++ toString i, d⟩ :: matchTargetsFrom (i + 1) ds

/-- Extract `t.meanings[0].definition` for each of the match terms, throwing at
the first term with no meanings (as the JS `map` would). -/
def matchDefs : List TermData → Except String (List String)
  | [] => Except.ok []
  | t :: ts => do
    let m ← jsMeaning0 t
    let rest ← matchDefs ts
    Except.ok (m.definition :: rest)

/-- The match-question block of `generateAssessmentFromTerms`
(part_003 lines 23-41), applied to `shuffledTerms.slice(0, 4)`. -/
def genMatchQuestion (matchTerms : List TermData) :
    Except String AssessmentQuestion := do
  let defs ← matchDefs matchTerms
  let items := matchItemsFrom 0 matchTerms
  let targets := matchTargetsFrom 0 defs
  let correctPairs := (items.zip targets).map (fun p => (p.1.id, p.2.id))
  Except.ok (.matchQ "match-q1" "Match each term to its correct definition."
    items targets correctPairs)

/-- The MCQ block of `generateAssessmentFromTerms` (part_003 lines 46-58) for
one term.  `r1` drives the distractor shuffle, `r2` the option shuffle.  The
JS code reads `term.meanings[0].definition` only inside the `push`, i.e. only
when exactly 3 distractors were found. -/
def genMCQ (r1 r2 : Nat → Nat) (pool : List TermData) (t : TermData)
    (i : Nat) : Except String (Option AssessmentQuestion) :=
  let correctAnswer := t.term
  let distractors :=
    ((shuffleArray r1 (pool.filter (fun u => u.term != correctAnswer))).take 3).map
      (fun u => u.term)
  if distractors.length = 3 then do
    let m ← jsMeaning0 t
    Except.ok (some (.mcq ("mcq-" ++ toString i)
      ("Which word best fits the definition: \"" ++ m.definition ++ "\"")
      (shuffleArray r2 (correctAnswer :: distractors)) correctAnswer))
  else
    Except.ok none

/-- The fill-in-the-blank block (part_003 lines 60-70) for one term. -/
def genFill (t : TermData) (i : Nat) : Option AssessmentQuestion :=
  match jsExample0 t with
  | none => none
  | some ex =>
    some (.fillBlank ("fill-" ++ toString i) (fillSentence t.term ex) t.term)

/-- The written-question block (part_003 lines 72-78) for one term: always
produced; the model answer falls back to a templated sentence when the term
has no (truthy) first example. -/
def genWritten (t : TermData) (i : Nat) : AssessmentQuestion :=
  .written ("written-" ++ toString i)
    ("Write your own sentence using the word \"" ++ t.term ++ "\".")
    (match jsExample0 t with
     | some e => e
     | none => "e.g., A sentence demonstrating the use of " ++ t.term ++ ".")

/-- The per-term body of the `shuffledTerms.forEach` (part_003 lines 44-79):
an optional MCQ (only when the pool has ≥ 4 terms), an optional
fill-in-the-blank, and always a written question. -/
def genPerTerm (R : Nat → Nat → Nat) (pool : List TermData) (t : TermData)
    (i : Nat) : Except String (List AssessmentQuestion) := do
  let mcqOpt ← if 4 ≤ pool.length then genMCQ (R (3 * i + 1)) (R (3 * i + 2)) pool t i
    else Except.ok none
  Except.ok (mcqOpt.toList ++ (genFill t i).toList ++ [genWritten t i])

/-- The whole `forEach` loop, iterating the shuffled terms with their index. -/
def genAllPerTerm (R : Nat → Nat → Nat) (pool : List TermData) :
    Nat → List TermData → Except String (List AssessmentQuestion)
  | _, [] => Except.ok []
  | i, t :: ts => do
    let qs ← genPerTerm R pool t i
    let rest ← genAllPerTerm R pool (i + 1) ts
    Except.ok (qs ++ rest)

/-- All questions pushed into the `questions` array of
`generateAssessmentFromTerms` before the final shuffle-and-truncate:
the match question (if ≥ 4 terms) followed by the per-term questions. -/
def generateQuestionPool (R : Nat → Nat → Nat) (terms : List TermData) :
    Except String (List AssessmentQuestion) := do
  let shuffledTerms := shuffleArray (R 0) terms
  let matchQs ← if 4 ≤ shuffledTerms.length then
      (genMatchQuestion (shuffledTerms.take 4)).map (fun q => [q])
    else Except.ok []
  let rest ← genAllPerTerm R shuffledTerms 0 shuffledTerms
  Except.ok (matchQs ++ rest)

/-- `Math.min(Math.floor(numTerms * 1.2) + 3, 25)` (part_003 line 84).  For
every possible array length `n`, the double product `n * 1.2` rounds so that
its floor is exactly `⌊6n/5⌋` (the representation error is far below the
distance to the next integer, and for multiples of 5 the product rounds up to
the exact integer), so the count is `min (6*n/5 + 3) 25` over `Nat`. -/
def targetQuestionCount (numTerms : Nat) : Nat :=
  min (6 * numTerms / 5 + 3) 25

/-- `generateAssessmentFromTerms` (part_003 lines 18-91): build the question
pool, shuffle it, truncate to the target count, and title the set with the
final question count. -/
def generateAssessmentFromTerms (R : Nat → Nat → Nat) (terms : List TermData) :
    Except String AssessmentData := do
  let questions ← generateQuestionPool R terms
  let finalQuestions :=
    (shuffleArray (R (3 * (terms.length + 1))) questions).take
      (targetQuestionCount terms.length)
  Except.ok ⟨"Vocabulary Assessment (" ++ toString finalQuestions.length ++
    " Questions)", finalQuestions⟩

/-- The abort condition of `AssessmentModal`'s effect (part_003 lines 114-128):
the modal closes without starting a session when generation threw or produced
zero questions. -/
def assessmentModalAborts (r : Except String AssessmentData) : Bool :=
  match r with
  | Except.ok a => a.questions.length == 0
  | Except.error _ => true

/-- A submitted answer value (the `any`-typed entries of `AnswerState`): the
UI stores either a string or an item-id → target-id object. -/
inductive JSAns where
  | str (s : String)
  | obj (m : List (String × String))
deriving DecidableEq, Repr

/-- The match check of `handleSubmit` (part_003 line 154):
`Object.keys(correctPairs).every(itemId => userAnswer[itemId] ===
correctPairs[itemId])`.  A key missing from `userAnswer` gives `undefined`,
which never equals a target-id string. -/
def gradeMatch (correctPairs userAnswer : List (String × String)) : Bool :=
  correctPairs.all (fun p => userAnswer.lookup p.1 == some p.2)

/-- The display-time match check of `MatchQuestionView` (part_003 lines
285-289), which additionally rejects an answer map with fewer keys than the
correct-pairing map (`Object.keys` of a JS object lists its unique keys, hence
the association-list length). -/
def matchViewIsCorrect (correctPairs userAnswer : List (String × String)) :
    Bool :=
  if userAnswer.length < correctPairs.length then false
  else gradeMatch correctPairs userAnswer

/-- One question of the batch grading pass in `handleSubmit` (part_003 lines
139-163).  A missing answer (`undefined`/`null`) skips the question, leaving
it incorrect.  A non-string answer to a written question would hit
`userAnswer.trim()` on a non-string and throw. -/
def gradeQuestion (answers : String → Option JSAns)
    (q : AssessmentQuestion) : Except String Bool :=
  match answers q.qid with
  | none => Except.ok false
  | some ua =>
    match q with
    | .mcq _ _ _ correctAnswer =>
      Except.ok (match ua with
        | .str s => s == correctAnswer
        | .obj _ => false)
    | .fillBlank _ _ correctAnswer =>
      Except.ok (match ua with
        | .str s => s.trim.toLower == correctAnswer.toLower
        | .obj _ => false)
    | .matchQ _ _ _ _ correctPairs =>
      Except.ok (match ua with
        | .obj m => gradeMatch correctPairs m
        | .str _ => false)
    | .written _ _ _ =>
      match ua with
      | .str s => Except.ok (s != "" && s.trim != "")
      | .obj _ => Except.error "TypeError: userAnswer.trim is not a function"

/-- The `correctCount` accumulation over all questions in `handleSubmit`. -/
def computeScore (answers : String → Option JSAns) :
    List AssessmentQuestion → Except String Nat
  | [] => Except.ok 0
  | q :: qs => do
    let b ← gradeQuestion answers q
    let n ← computeScore answers qs
    Except.ok (if b then n + 1 else n)

/-- The `gameState` of `QuizModal`. -/
inductive GameState where
  | playing
  | results
deriving DecidableEq, Repr

/-- The state of one `QuizModal` session (part_003 lines 374-377). -/
structure QuizState where
  gameState : GameState
  currentIndex : Nat
  wrongAnswers : List TermData
  shuffledQuestions : List TermData
deriving Repr

/-- `handleNextQuestion` (part_003 lines 388-408).  Returns the updated state
together with the `onQuizComplete` callback payload `(quizType, score, total)`
when one is fired; `none` models the `TypeError` that the JS code would raise
if the current index were out of bounds (the UI never calls it that way). -/
def handleNextQuestion (quizType : String) (isCorrect : Bool) (s : QuizState) :
    Option (QuizState × Option (String × Nat × Nat)) :=
  match s.shuffledQuestions[s.currentIndex]? with
  | none => none
  | some currentTerm =>
    let wrong :=
      if isCorrect then s.wrongAnswers
      else if (s.wrongAnswers.find? (fun t => t.term == currentTerm.term)).isSome
        then s.wrongAnswers
      else s.wrongAnswers ++ [currentTerm]
    if s.currentIndex + 1 < s.shuffledQuestions.length then
      some ({ s with currentIndex := s.currentIndex + 1, wrongAnswers := wrong },
        none)
    else
      some ({ s with wrongAnswers := wrong, gameState := GameState.results },
        some (quizType, s.shuffledQuestions.length - wrong.length,
          s.shuffledQuestions.length))

/-- `handleRedeem` (part_003 lines 410-415). -/
def handleRedeem (rand : Nat → Nat) (s : QuizState) : QuizState :=
  { s with
    shuffledQuestions := shuffleArray rand s.wrongAnswers
    wrongAnswers := []
    currentIndex := 0
    gameState := GameState.playing }

/-- Whether the results screen offers the redeem button (part_003 line 436:
`wrongAnswers.length > 0 && <button …>`). -/
def redeemAvailable (s : QuizState) : Bool :=
  decide (0 < s.wrongAnswers.length)

/-- Tag test for the match variant. -/
def isMatchQ : AssessmentQuestion → Bool
  | .matchQ _ _ _ _ _ => true
  | _ => false

/-- Options of an MCQ question. -/
def qOptions : AssessmentQuestion → List String
  | .mcq _ _ o _ => o
  | _ => []

/-- Correct answer of an MCQ question. -/
def qCorrect : AssessmentQuestion → String
  | .mcq _ _ _ c => c
  | _ => ""

/-- Items of a match question. -/
def qItems : AssessmentQuestion → List MatchItem
  | .matchQ _ _ its _ _ => its
  | _ => []

/-- Targets of a match question. -/
def qTargets : AssessmentQuestion → List MatchTarget
  | .matchQ _ _ _ tgs _ => tgs
  | _ => []

/-- Correct pairs of a match question. -/
def qPairs : AssessmentQuestion → List (String × String)
  | .matchQ _ _ _ _ ps => ps
  | _ => []

/-- The term texts of a pool. -/
def termTexts (pool : List TermData) : List String :=
  pool.map TermData.term

@[simp] theorem except_bind_ok (a : α) (f : α → Except ε β) :
    (Except.ok a >>= f : Except ε β) = f a := rfl

@[simp] theorem except_bind_error (e : ε) (f : α → Except ε β) :
    (Except.error e >>= f : Except ε β) = Except.error e := rfl

theorem jsMeaning0_ok (t : TermData) (h : t.meanings ≠ []) :
    ∃ m ms, t.meanings = m :: ms ∧ jsMeaning0 t = Except.ok m := by
  cases hm : t.meanings with
  | nil => exact absurd hm h
  | cons m ms => exact ⟨m, ms, rfl, by simp [jsMeaning0, hm]⟩

theorem matchDefs_ok (ts : List TermData) (h : ∀ t ∈ ts, t.meanings ≠ []) :
    ∃ ds, matchDefs ts = Except.ok ds ∧ ds.length = ts.length := by
  induction ts with
  | nil => exact ⟨[], rfl, rfl⟩
  | cons t ts ih =>
    obtain ⟨m, ms, hms, hok⟩ := jsMeaning0_ok t (h t (by simp))
    obtain ⟨ds, hds, hlen⟩ := ih (fun u hu => h u (by simp [hu]))
    exact ⟨m.definition :: ds, by simp [matchDefs, hok, hds], by simp [hlen]⟩

theorem genMCQ_cases (r1 r2 : Nat → Nat) (pool : List TermData) (t : TermData)
    (i : Nat) (h : t.meanings ≠ []) :
    ∃ o, genMCQ r1 r2 pool t i = Except.ok o ∧
      ∀ q, o = some q → isMatchQ q = false := by
  obtain ⟨m, ms, hms, hok⟩ := jsMeaning0_ok t h
  simp only [genMCQ]
  split
  · refine ⟨_, by rw [hok]; rfl, ?_⟩
    intro q hq
    simp at hq
    simp [← hq, isMatchQ]
  · exact ⟨none, rfl, by simp⟩

theorem genFill_not_match (t : TermData) (i : Nat) (q : AssessmentQuestion)
    (h : genFill t i = some q) : isMatchQ q = false := by
  unfold genFill at h
  rcases hex : jsExample0 t with _ | e <;> rw [hex] at h
  · exact absurd h (by simp)
  · simp at h
    simp [← h, isMatchQ]

theorem genWritten_not_match (t : TermData) (i : Nat) :
    isMatchQ (genWritten t i) = false := rfl

theorem opt_filter_not_match (o : Option AssessmentQuestion)
    (h : ∀ q, o = some q → isMatchQ q = false) :
    o.toList.filter isMatchQ = [] := by
  cases o with
  | none => rfl
  | some q => simp [List.filter, h q rfl]

theorem genPerTerm_ok (R : Nat → Nat → Nat) (pool : List TermData)
    (t : TermData) (i : Nat) (h : t.meanings ≠ []) :
    ∃ qs, genPerTerm R pool t i = Except.ok qs ∧ qs ≠ [] ∧
      qs.filter isMatchQ = [] := by
  have hfill : (genFill t i).toList.filter isMatchQ = [] :=
    opt_filter_not_match _ (fun q hq => genFill_not_match t i q hq)
  have hwr : List.filter isMatchQ [genWritten t i] = [] := by
    simp [List.filter, genWritten_not_match]
  by_cases h4 : 4 ≤ pool.length
  · obtain ⟨o, ho, hno⟩ := genMCQ_cases (R (3 * i + 1)) (R (3 * i + 2)) pool t i h
    refine ⟨o.toList ++ (genFill t i).toList ++ [genWritten t i],
      by simp [genPerTerm, h4, ho], by simp, ?_⟩
    simp only [List.filter_append, hfill, hwr, opt_filter_not_match o hno,
      List.append_nil]
  · exact ⟨(genFill t i).toList ++ [genWritten t i],
      by simp [genPerTerm, h4], by simp,
      by simp only [List.filter_append, hfill, hwr, List.append_nil]⟩

theorem genAllPerTerm_ok (R : Nat → Nat → Nat) (pool : List TermData)
    (ts : List TermData) (i : Nat) (h : ∀ t ∈ ts, t.meanings ≠ []) :
    ∃ ys, genAllPerTerm R pool i ts = Except.ok ys ∧ ts.length ≤ ys.length ∧
      ys.filter isMatchQ = [] := by
  induction ts generalizing i with
  | nil => exact ⟨[], rfl, by simp, rfl⟩
  | cons t ts ih =>
    obtain ⟨qs, hqs, hne, hflt⟩ := genPerTerm_ok R pool t i (h t (by simp))
    obtain ⟨ys, hys, hlen, hyflt⟩ := ih (i + 1) (fun u hu => h u (by simp [hu]))
    refine ⟨qs ++ ys, by simp [genAllPerTerm, hqs, hys], ?_, ?_⟩
    · have : 1 ≤ qs.length := by
        cases qs with
        | nil => exact absurd rfl hne
        | cons a l => simp
      simp only [List.length_append, List.length_cons]
      omega
    · simp [List.filter_append, hflt, hyflt]

@[simp] theorem except_map_ok (f : α → β) (a : α) :
    Except.map f (Except.ok a : Except ε α) = Except.ok (f a) := rfl

@[simp] theorem except_map_error (f : α → β) (e : ε) :
    Except.map f (Except.error e : Except ε α) = Except.error e := rfl

theorem genMatchQuestion_ok (ts : List TermData)
    (h : ∀ t ∈ ts, t.meanings ≠ []) :
    ∃ ds, matchDefs ts = Except.ok ds ∧ ds.length = ts.length ∧
      genMatchQuestion ts = Except.ok (.matchQ "match-q1"
        "Match each term to its correct definition."
        (matchItemsFrom 0 ts) (matchTargetsFrom 0 ds)
        (((matchItemsFrom 0 ts).zip (matchTargetsFrom 0 ds)).map
          (fun p => (p.1.id, p.2.id)))) := by
  obtain ⟨ds, hds, hlen⟩ := matchDefs_ok ts h
  exact ⟨ds, hds, hlen, by simp [genMatchQuestion, hds]⟩

theorem generateQuestionPool_ok (R : Nat → Nat → Nat) (terms : List TermData)
    (h : ∀ t ∈ terms, t.meanings ≠ []) :
    ∃ qs, generateQuestionPool R terms = Except.ok qs ∧
      terms.length ≤ qs.length := by
  have hmemS : ∀ t ∈ shuffleArray (R 0) terms, t.meanings ≠ [] :=
    fun t ht => h t ((shuffleArray_mem (R 0) terms t).mp ht)
  obtain ⟨ys, hys, hylen, _⟩ :=
    genAllPerTerm_ok R (shuffleArray (R 0) terms) (shuffleArray (R 0) terms) 0
      hmemS
  by_cases h4 : 4 ≤ (shuffleArray (R 0) terms).length
  · have hmem4 : ∀ t ∈ (shuffleArray (R 0) terms).take 4, t.meanings ≠ [] :=
      fun t ht => hmemS t (List.take_subset 4 _ ht)
    obtain ⟨ds, hds, hdlen, hmq⟩ := genMatchQuestion_ok _ hmem4
    refine ⟨_, by simp [generateQuestionPool, h4, hmq, hys]; rfl, ?_⟩
    have := shuffleArray_length (R 0) terms
    simp only [List.length_cons]
    omega
  · refine ⟨ys, ?_, ?_⟩
    · simp only [generateQuestionPool, h4]
      simp [hys]
    · have := shuffleArray_length (R 0) terms
      omega

/-- C8: for every random source and every input sequence, `shuffleArray`
returns a permutation of the input (same multiset of elements, hence same
length), and `shuffleArray` of the empty sequence is the empty sequence.  The
source copies the input (`[...array]`) before swapping in place, so in this
pure embedding non-mutation of the input is inherent. -/
theorem C8_shuffleArray_permutation (α : Type) (rand : Nat → Nat)
    (l : List α) :
    List.Perm (shuffleArray rand l) l ∧
    (shuffleArray rand l).length = l.length ∧
    shuffleArray rand ([] : List α) = [] :=
  ⟨shuffleArray_perm rand l, shuffleArray_length rand l, rfl⟩

/-- C1: whenever every input term has at least one meaning, generation
succeeds, and the composer shuffles the collected question pool and truncates
it to `targetQuestionCount n = min (⌊n·1.2⌋+3) 25` questions: the returned
set has exactly `min (target) (pool size)` questions, hence at most the
target, and exactly the target whenever at least that many questions were
produced; for 10 input terms the target is 15. -/
theorem C1_composer_sizing (R : Nat → Nat → Nat) (terms : List TermData)
    (h : ∀ t ∈ terms, t.meanings ≠ []) :
    ∃ qs a, generateQuestionPool R terms = Except.ok qs ∧
      generateAssessmentFromTerms R terms = Except.ok a ∧
      a.questions.length = min (targetQuestionCount terms.length) qs.length ∧
      a.questions.length ≤ targetQuestionCount terms.length ∧
      (targetQuestionCount terms.length ≤ qs.length →
        a.questions.length = targetQuestionCount terms.length) ∧
      targetQuestionCount 10 = 15 := by
  obtain ⟨qs, hqs, hlen⟩ := generateQuestionPool_ok R terms h
  have hshuf := shuffleArray_length (R (3 * (terms.length + 1))) qs
  refine ⟨qs,
    ⟨"Vocabulary Assessment (" ++
        toString ((shuffleArray (R (3 * (terms.length + 1))) qs).take
          (targetQuestionCount terms.length)).length ++ " Questions)",
      (shuffleArray (R (3 * (terms.length + 1))) qs).take
        (targetQuestionCount terms.length)⟩,
    hqs, by simp [generateAssessmentFromTerms, hqs], ?_, ?_, ?_, by decide⟩
  · simp [List.length_take, hshuf]
  · simp [List.length_take, hshuf]
  · intro hge
    simp only [List.length_take, hshuf]
    omega

/-- C10: for every non-empty input term list in which each term has at least
one meaning, generation succeeds with at least one question (a written
question is emitted for every term, so the pool has at least `n` questions,
and the truncation target is at least 4 for `n ≥ 1`), hence the caller's
zero-questions abort branch in `AssessmentModal` is not taken. -/
theorem C10_assessment_nonempty (R : Nat → Nat → Nat) (terms : List TermData)
    (hne : terms ≠ []) (h : ∀ t ∈ terms, t.meanings ≠ []) :
    ∃ qs a, generateQuestionPool R terms = Except.ok qs ∧
      terms.length ≤ qs.length ∧
      4 ≤ targetQuestionCount terms.length ∧
      generateAssessmentFromTerms R terms = Except.ok a ∧
      a.questions ≠ [] ∧
      assessmentModalAborts (generateAssessmentFromTerms R terms) = false := by
  obtain ⟨qs, hqs, hlen⟩ := generateQuestionPool_ok R terms h
  have hnlen : 1 ≤ terms.length := by
    cases terms with
    | nil => exact absurd rfl hne
    | cons a l => simp
  have htgt : 4 ≤ targetQuestionCount terms.length := by
    unfold targetQuestionCount
    omega
  have hshuf := shuffleArray_length (R (3 * (terms.length + 1))) qs
  have hgen : generateAssessmentFromTerms R terms = Except.ok
      ⟨"Vocabulary Assessment (" ++
        toString ((shuffleArray (R (3 * (terms.length + 1))) qs).take
          (targetQuestionCount terms.length)).length ++ " Questions)",
      (shuffleArray (R (3 * (terms.length + 1))) qs).take
        (targetQuestionCount terms.length)⟩ := by
    simp [generateAssessmentFromTerms, hqs]
  have hqlen : 0 < ((shuffleArray (R (3 * (terms.length + 1))) qs).take
      (targetQuestionCount terms.length)).length := by
    simp only [List.length_take, hshuf]
    omega
  refine ⟨qs, _, hqs, hlen, htgt, hgen, ?_, ?_⟩
  · exact List.length_pos.mp hqlen
  · rw [hgen]
    have hne0 : ((shuffleArray (R (3 * (terms.length + 1))) qs).take
        (targetQuestionCount terms.length)).length ≠ 0 := by omega
    simp only [assessmentModalAborts]
    exact beq_eq_false_iff_ne.mpr hne0

theorem exists_four (l : List α) (h : l.length = 4) :
    ∃ a b c d, l = [a, b, c, d] := by
  match l, h with
  | [a, b, c, d], _ => exact ⟨a, b, c, d, rfl⟩

/-- C4: for every input list with at least 4 terms (each with a meaning, so
generation does not throw), the pre-truncation question pool contains exactly
one match question, built from the first 4 terms of the shuffled list: 4
items and 4 targets in the same relative order as those terms, and
`correctPairs` is the positional bijection `item-i ↦ target-i`. -/
theorem C4_match_question (R : Nat → Nat → Nat) (terms : List TermData)
    (h4 : 4 ≤ terms.length) (h : ∀ t ∈ terms, t.meanings ≠ []) :
    ∃ q qs, genMatchQuestion ((shuffleArray (R 0) terms).take 4) =
        Except.ok q ∧
      generateQuestionPool R terms = Except.ok qs ∧
      qs.filter isMatchQ = [q] ∧
      (qItems q).length = 4 ∧ (qTargets q).length = 4 ∧
      (qItems q).map MatchItem.id = ["item-0", "item-1", "item-2", "item-3"] ∧
      (qTargets q).map MatchTarget.id =
        ["target-0", "target-1", "target-2", "target-3"] ∧
      qPairs q = [("item-0", "target-0"), ("item-1", "target-1"),
        ("item-2", "target-2"), ("item-3", "target-3")] ∧
      (qItems q).map MatchItem.term =
        ((shuffleArray (R 0) terms).take 4).map TermData.term ∧
      ∃ ds, matchDefs ((shuffleArray (R 0) terms).take 4) = Except.ok ds ∧
        (qTargets q).map MatchTarget.definition = ds := by
  have hmemS : ∀ t ∈ shuffleArray (R 0) terms, t.meanings ≠ [] :=
    fun t ht => h t ((shuffleArray_mem (R 0) terms t).mp ht)
  have hslen := shuffleArray_length (R 0) terms
  have h4s : 4 ≤ (shuffleArray (R 0) terms).length := by omega
  have ht4len : ((shuffleArray (R 0) terms).take 4).length = 4 := by
    simp only [List.length_take]
    omega
  obtain ⟨a, b, c, d, habcd⟩ := exists_four _ ht4len
  have hmem4 : ∀ t ∈ (shuffleArray (R 0) terms).take 4, t.meanings ≠ [] :=
    fun t ht => hmemS t (List.take_subset 4 _ ht)
  obtain ⟨ds, hds, hdlen, hmq⟩ := genMatchQuestion_ok _ hmem4
  have hdlen4 : ds.length = 4 := by rw [hdlen, ht4len]
  obtain ⟨da, db, dc, dd, hdsv⟩ := exists_four ds hdlen4
  obtain ⟨ys, hys, hylen, hyflt⟩ :=
    genAllPerTerm_ok R (shuffleArray (R 0) terms) (shuffleArray (R 0) terms) 0
      hmemS
  subst hdsv
  rw [habcd] at hmq
  have hitems : matchItemsFrom 0 [a, b, c, d] =
      [⟨"item-0", a.term⟩, ⟨"item-1", b.term⟩, ⟨"item-2", c.term⟩,
        ⟨"item-3", d.term⟩] := rfl
  have htgts : matchTargetsFrom 0 [da, db, dc, dd] =
      [⟨"target-0", da⟩, ⟨"target-1", db⟩, ⟨"target-2", dc⟩,
        ⟨"target-3", dd⟩] := rfl
  rw [hitems, htgts] at hmq
  refine ⟨_, _, by rw [habcd]; exact hmq,
    by simp [generateQuestionPool, h4s, hmq, habcd, hys]; rfl,
    ?_, ?_, ?_, ?_, ?_, ?_, ?_, ⟨[da, db, dc, dd], hds, ?_⟩⟩
  · simp [List.filter, isMatchQ, hyflt]
  · simp [qItems]
  · simp [qTargets]
  · simp [qItems]
  · simp [qTargets]
  · simp only [qPairs]
    rfl
  · simp [qItems, habcd]
  · simp [qTargets]

/-- Did the MCQ generator emit a question? -/
def wasProduced : Except String (Option AssessmentQuestion) → Bool
  | Except.ok (some _) => true
  | _ => false

/-- Options of an emitted MCQ result. -/
def producedOptions : Except String (Option AssessmentQuestion) → List String
  | Except.ok (some q) => qOptions q
  | _ => []

/-- A term with one meaning and no details (shorthand for concrete inputs). -/
def mkTerm (s d : String) : TermData :=
  ⟨s, [⟨"noun", d⟩], none⟩

def cexPool : List TermData :=
  [mkTerm "x" "xdef", mkTerm "b" "bdef1", mkTerm "b" "bdef2",
    mkTerm "b" "bdef3"]

/-- C2 counterexample: in the 4-term pool `cexPool` whose last three terms all
share the text "b", the MCQ for the selected term "x" is produced (not
skipped) although only one distinct distractor text exists, and its 4 options
contain "b" three times — so the three non-correct entries are not distinct,
refuting the claim as stated. -/
theorem C2_counterexample :
    wasProduced (genMCQ (fun _ => 0) (fun _ => 0) cexPool (mkTerm "x" "xdef")
      0) = true ∧
    (producedOptions (genMCQ (fun _ => 0) (fun _ => 0) cexPool
      (mkTerm "x" "xdef") 0)).length = 4 ∧
    (producedOptions (genMCQ (fun _ => 0) (fun _ => 0) cexPool
      (mkTerm "x" "xdef") 0)).count "b" = 3 ∧
    (termTexts (cexPool.filter
      (fun u => u.term != (mkTerm "x" "xdef").term))).dedup.length = 1 := by
  decide

/-- C2 (amended): for a pool whose term texts are pairwise distinct, every
produced MCQ has exactly 4 options, contains the selected term's text exactly
once, and its 3 distractors are distinct term texts drawn from the remaining
pool (the terms whose text differs from the selected one); and whenever that
remaining pool has fewer than 3 entries the question is skipped.  (As stated
over arbitrary pools the claim fails: with duplicate term texts the
distractors need not be distinct; see the counterexample.) -/
theorem C2_mcq_options (r1 r2 : Nat → Nat) (pool : List TermData)
    (t : TermData) (i : Nat) (hnd : (termTexts pool).Nodup) :
    (∀ q, genMCQ r1 r2 pool t i = Except.ok (some q) →
      (qOptions q).length = 4 ∧
      (qOptions q).count t.term = 1 ∧
      qCorrect q = t.term ∧
      ∃ ds, List.Perm (qOptions q) (t.term :: ds) ∧ ds.length = 3 ∧
        ds.Nodup ∧
        ∀ x ∈ ds, x ∈ termTexts (pool.filter (fun u => u.term != t.term))) ∧
    ((pool.filter (fun u => u.term != t.term)).length < 3 →
      genMCQ r1 r2 pool t i = Except.ok none) := by
  have hflNodup : (termTexts (pool.filter (fun u => u.term != t.term))).Nodup := by
    have hsub : List.Sublist (termTexts (pool.filter
        (fun u => u.term != t.term))) (termTexts pool) :=
      (List.filter_sublist pool).map TermData.term
    exact hsub.nodup hnd
  have hshufNodup :
      ((shuffleArray r1 (pool.filter (fun u => u.term != t.term))).map
        TermData.term).Nodup := by
    have hp := (shuffleArray_perm r1
      (pool.filter (fun u => u.term != t.term))).map TermData.term
    exact (hp.nodup_iff).mpr hflNodup
  constructor
  · intro q hq
    simp only [genMCQ] at hq
    split at hq
    · rename_i hlen3
      cases hjm : t.meanings with
      | nil => rw [jsMeaning0, hjm] at hq; simp at hq
      | cons m ms =>
        rw [jsMeaning0, hjm] at hq
        simp only [except_bind_ok, Except.ok.injEq, Option.some.injEq] at hq
        subst hq
        simp only [qOptions, qCorrect]
        set dsT := ((shuffleArray r1
          (pool.filter (fun u => u.term != t.term))).take 3).map
          (fun u => u.term) with hdsT
        have hperm := shuffleArray_perm r2 (t.term :: dsT)
        have hnotin : t.term ∉ dsT := by
          intro hx
          rw [hdsT] at hx
          obtain ⟨u, hu, hut⟩ := List.mem_map.mp hx
          have humem : u ∈ pool.filter (fun u => u.term != t.term) :=
            (shuffleArray_mem r1 _ u).mp (List.take_subset 3 _ hu)
          have := List.of_mem_filter humem
          simp only [bne_iff_ne, ne_eq] at this
          exact this hut
        refine ⟨by rw [hperm.length_eq]; simp [hlen3], ?_, by trivial,
          dsT, hperm, hlen3, ?_, ?_⟩
        · rw [hperm.count_eq]
          simp [List.count_cons_self, List.count_eq_zero.mpr hnotin]
        · rw [hdsT, List.map_take]
          exact (List.take_sublist 3 _).nodup hshufNodup
        · intro x hx
          rw [hdsT] at hx
          obtain ⟨u, hu, hut⟩ := List.mem_map.mp hx
          have humem : u ∈ pool.filter (fun u => u.term != t.term) :=
            (shuffleArray_mem r1 _ u).mp (List.take_subset 3 _ hu)
          exact hut ▸ List.mem_map_of_mem TermData.term humem
    · rename_i hlen3
      simp at hq
  · intro hlt
    simp only [genMCQ]
    rw [if_neg]
    simp only [List.length_map, List.length_take,
      shuffleArray_length]
    omega

/-- C3: for every term with a (truthy) first stored example, the generator
produces a fill-in-the-blank question whose sentence is the first example
with the markdown `**` markers stripped and every case-insensitive occurrence
of the term's text replaced by the `_____` marker, and whose `correctAnswer`
is the term text; in particular, term "ambiguous" with example "The contract
was **ambiguous** in places." yields "The contract was _____ in places.". -/
theorem C3_fill_blank (t : TermData) (i : Nat) (ex : String)
    (hex : jsExample0 t = some ex) :
    genFill t i = some (AssessmentQuestion.fillBlank ("fill-" ++ toString i)
      (fillSentence t.term ex) t.term) ∧
    fillSentence "ambiguous" "The contract was **ambiguous** in places." =
      "The contract was _____ in places." :=
  ⟨by simp [genFill, hex], by decide⟩

/-- C5 counterexample: the batch grader (and even the size-checking display
variant) marks a submitted map correct although it has one more entry than
the correct-pairing map, refuting "correct iff same size and identical
key-by-key". -/
theorem C5_counterexample :
    gradeMatch [("item-0", "target-0")]
      [("item-0", "target-0"), ("item-X", "target-0")] = true ∧
    matchViewIsCorrect [("item-0", "target-0")]
      [("item-0", "target-0"), ("item-X", "target-0")] = true ∧
    ([("item-0", "target-0"), ("item-X", "target-0")] :
      List (String × String)).length ≠
      ([("item-0", "target-0")] : List (String × String)).length := by
  decide

/-- C5 (amended): the batch grader marks a match question correct iff the
submitted map agrees with the correct-pairing map at every item id of the
correct-pairing map; entries under ids unknown to the question are ignored.
When the submitted map's ids all occur among the question's item ids (which
the UI guarantees) and both maps have unique keys, this is equivalent to the
claim as stated: same size and key-by-key agreement. -/
theorem C5_match_grading (cp ua : List (String × String))
    (hcp : (cp.map Prod.fst).Nodup) (hua : (ua.map Prod.fst).Nodup)
    (hsub : ∀ k ∈ ua.map Prod.fst, k ∈ cp.map Prod.fst) :
    gradeMatch cp ua = true ↔
      (ua.length = cp.length ∧ ∀ p ∈ cp, ua.lookup p.1 = some p.2) := by
  constructor
  · intro h
    have hagree : ∀ p ∈ cp, ua.lookup p.1 = some p.2 := by
      intro p hp
      have := List.all_eq_true.mp h p hp
      exact beq_iff_eq.mp this
    refine ⟨?_, hagree⟩
    have hsub2 : ∀ k ∈ cp.map Prod.fst, k ∈ ua.map Prod.fst := by
      intro k hk
      obtain ⟨p, hp, hfst⟩ := List.mem_map.mp hk
      have hlk : ua.lookup p.1 = some p.2 := hagree p hp
      have : (ua.lookup p.1).isSome := by rw [hlk]; rfl
      obtain ⟨q, hq, hbeq⟩ := List.lookup_isSome_iff.mp this
      have : p.1 = q.1 := beq_iff_eq.mp hbeq
      rw [← hfst, this]
      exact List.mem_map_of_mem Prod.fst hq
    have h1 : (ua.map Prod.fst).length ≤ (cp.map Prod.fst).length :=
      (List.subperm_of_subset hua hsub).length_le
    have h2 : (cp.map Prod.fst).length ≤ (ua.map Prod.fst).length :=
      (List.subperm_of_subset hcp hsub2).length_le
    simp only [List.length_map] at h1 h2
    omega
  · intro ⟨_, hagree⟩
    refine List.all_eq_true.mpr ?_
    intro p hp
    exact beq_iff_eq.mpr (hagree p hp)

/-- C6: when an answer submission happens on the last question, the state
machine records the current term into the wrong-answer set only if it was
answered incorrectly and is not already present (so wrong terms stay
pairwise distinct by term identity), fires the completion callback with
`(quiz type, total − distinct wrong count, total)`, and transitions the state
tag to `results`. -/
theorem C6_quiz_completion (qt : String) (isCorrect : Bool) (s : QuizState)
    (hidx : s.currentIndex < s.shuffledQuestions.length)
    (hlast : ¬ (s.currentIndex + 1 < s.shuffledQuestions.length))
    (hnodup : (s.wrongAnswers.map TermData.term).Nodup) :
    ∃ s2, handleNextQuestion qt isCorrect s = some (s2,
        some (qt, s.shuffledQuestions.length - s2.wrongAnswers.length,
          s.shuffledQuestions.length)) ∧
      s2.gameState = GameState.results ∧
      (s2.wrongAnswers.map TermData.term).Nodup ∧
      s2.shuffledQuestions = s.shuffledQuestions ∧
      s2.wrongAnswers =
        (if isCorrect then s.wrongAnswers
         else if (s.wrongAnswers.find? (fun t => t.term ==
             s.shuffledQuestions[s.currentIndex].term)).isSome
           then s.wrongAnswers
         else s.wrongAnswers ++ [s.shuffledQuestions[s.currentIndex]]) := by
  have hget : s.shuffledQuestions[s.currentIndex]? =
      some s.shuffledQuestions[s.currentIndex] :=
    List.getElem?_eq_getElem hidx
  refine ⟨{ s with
      wrongAnswers :=
        (if isCorrect then s.wrongAnswers
         else if (s.wrongAnswers.find? (fun t => t.term ==
             s.shuffledQuestions[s.currentIndex].term)).isSome
           then s.wrongAnswers
         else s.wrongAnswers ++ [s.shuffledQuestions[s.currentIndex]])
      gameState := GameState.results }, ?_, rfl, ?_, rfl, rfl⟩
  · simp only [handleNextQuestion, hget]
    rw [if_neg hlast]
  · by_cases hc : isCorrect
    · simp [hc, hnodup]
    · by_cases hf : (s.wrongAnswers.find? (fun t => t.term ==
          s.shuffledQuestions[s.currentIndex].term)).isSome
      · simp [hc, hf, hnodup]
      · simp only [hc, hf, if_false, Bool.false_eq_true, if_neg]
        rw [List.map_append]
        refine List.Nodup.append hnodup (by simp) ?_
        intro a ha hb
        simp only [List.map_cons, List.map_nil, List.mem_singleton] at hb
        obtain ⟨u, hu, hut⟩ := List.mem_map.mp ha
        have hnone : s.wrongAnswers.find? (fun t => t.term ==
            s.shuffledQuestions[s.currentIndex].term) = none :=
          Option.not_isSome_iff_eq_none.mp hf
        have := List.find?_eq_none.mp hnone u hu
        simp only [beq_iff_eq] at this
        exact this (by rw [hut, hb])

/-- C7: the redeem action starts a fresh playing run whose question list is a
permutation of exactly the previously-wrong terms (for every random source),
with the wrong-answer set cleared and the current index reset to 0; and the
redeem button is unavailable precisely when the session has zero wrong
answers, so redeem cannot be invoked then. -/
theorem C7_redeem (rand : Nat → Nat) (s : QuizState) :
    List.Perm (handleRedeem rand s).shuffledQuestions s.wrongAnswers ∧
    (handleRedeem rand s).wrongAnswers = [] ∧
    (handleRedeem rand s).currentIndex = 0 ∧
    (handleRedeem rand s).gameState = GameState.playing ∧
    (redeemAvailable s = false ↔ s.wrongAnswers = []) := by
  refine ⟨shuffleArray_perm rand s.wrongAnswers, rfl, rfl, rfl, ?_⟩
  simp [redeemAvailable, List.length_eq_zero]

/-- C9: a question with no submitted answer is graded incorrect without
throwing (for all four types, since the question is arbitrary), and it
contributes nothing to the batch score. -/
theorem C9_unanswered (answers : String → Option JSAns)
    (q : AssessmentQuestion) (qs : List AssessmentQuestion)
    (hnone : answers q.qid = none) :
    gradeQuestion answers q = Except.ok false ∧
    computeScore answers (q :: qs) = computeScore answers qs := by
  have hg : gradeQuestion answers q = Except.ok false := by
    unfold gradeQuestion
    rw [hnone]
  refine ⟨hg, ?_⟩
  cases hsc : computeScore answers qs with
  | error e => simp [computeScore, hg, hsc]
  | ok n => simp [computeScore, hg, hsc]

def wR : Nat → Nat → Nat := fun _ _ => 0

def wRand : Nat → Nat := fun _ => 0

def wPool4 : List TermData :=
  [mkTerm "alpha" "d1", mkTerm "beta" "d2", mkTerm "gamma" "d3",
    mkTerm "delta" "d4"]

def wPool10 : List TermData :=
  [mkTerm "t1" "d1", mkTerm "t2" "d2", mkTerm "t3" "d3", mkTerm "t4" "d4",
    mkTerm "t5" "d5", mkTerm "t6" "d6", mkTerm "t7" "d7", mkTerm "t8" "d8",
    mkTerm "t9" "d9", mkTerm "t10" "d10"]

def wFillTerm : TermData :=
  ⟨"ambiguous", [⟨"adjective", "unclear"⟩],
    some [(0, ⟨["The contract was **ambiguous** in places."]⟩)]⟩

def wCP : List (String × String) :=
  [("item-0", "target-0"), ("item-1", "target-1")]

def wQuizState : QuizState :=
  ⟨GameState.playing, 0, [], [mkTerm "alpha" "d1"]⟩

def wAnswers : String → Option JSAns := fun _ => none

/-- Witness for C1 at a concrete 10-term input. -/
theorem C1_composer_sizing_witness :
    (∀ t ∈ wPool10, t.meanings ≠ []) ∧
    (∃ qs a, generateQuestionPool wR wPool10 = Except.ok qs ∧
      generateAssessmentFromTerms wR wPool10 = Except.ok a ∧
      a.questions.length = min (targetQuestionCount wPool10.length)
        qs.length ∧
      a.questions.length ≤ targetQuestionCount wPool10.length ∧
      (targetQuestionCount wPool10.length ≤ qs.length →
        a.questions.length = targetQuestionCount wPool10.length) ∧
      targetQuestionCount 10 = 15) :=
  ⟨by decide, C1_composer_sizing wR wPool10 (by decide)⟩

/-- Witness for C2 at a concrete 4-term pool with distinct term texts. -/
theorem C2_mcq_options_witness :
    (termTexts wPool4).Nodup ∧
    ((∀ q, genMCQ wRand wRand wPool4 (mkTerm "alpha" "d1") 0 =
        Except.ok (some q) →
      (qOptions q).length = 4 ∧
      (qOptions q).count (mkTerm "alpha" "d1").term = 1 ∧
      qCorrect q = (mkTerm "alpha" "d1").term ∧
      ∃ ds, List.Perm (qOptions q) ((mkTerm "alpha" "d1").term :: ds) ∧
        ds.length = 3 ∧ ds.Nodup ∧
        ∀ x ∈ ds, x ∈ termTexts (wPool4.filter
          (fun u => u.term != (mkTerm "alpha" "d1").term))) ∧
    ((wPool4.filter
        (fun u => u.term != (mkTerm "alpha" "d1").term)).length < 3 →
      genMCQ wRand wRand wPool4 (mkTerm "alpha" "d1") 0 = Except.ok none)) :=
  ⟨by decide, C2_mcq_options wRand wRand wPool4 (mkTerm "alpha" "d1") 0
    (by decide)⟩

/-- Witness for C3 at the claim's own example term. -/
theorem C3_fill_blank_witness :
    jsExample0 wFillTerm =
      some "The contract was **ambiguous** in places." ∧
    (genFill wFillTerm 0 = some (AssessmentQuestion.fillBlank
      ("fill-" ++ toString 0)
      (fillSentence wFillTerm.term "The contract was **ambiguous** in places.")
      wFillTerm.term) ∧
    fillSentence "ambiguous" "The contract was **ambiguous** in places." =
      "The contract was _____ in places.") :=
  ⟨by decide, C3_fill_blank wFillTerm 0 _ (by decide)⟩

/-- Witness for C4 at a concrete 4-term input. -/
theorem C4_match_question_witness :
    (4 ≤ wPool4.length ∧ ∀ t ∈ wPool4, t.meanings ≠ []) ∧
    (∃ q qs, genMatchQuestion ((shuffleArray (wR 0) wPool4).take 4) =
        Except.ok q ∧
      generateQuestionPool wR wPool4 = Except.ok qs ∧
      qs.filter isMatchQ = [q] ∧
      (qItems q).length = 4 ∧ (qTargets q).length = 4 ∧
      (qItems q).map MatchItem.id = ["item-0", "item-1", "item-2", "item-3"] ∧
      (qTargets q).map MatchTarget.id =
        ["target-0", "target-1", "target-2", "target-3"] ∧
      qPairs q = [("item-0", "target-0"), ("item-1", "target-1"),
        ("item-2", "target-2"), ("item-3", "target-3")] ∧
      (qItems q).map MatchItem.term =
        ((shuffleArray (wR 0) wPool4).take 4).map TermData.term ∧
      ∃ ds, matchDefs ((shuffleArray (wR 0) wPool4).take 4) = Except.ok ds ∧
        (qTargets q).map MatchTarget.definition = ds) :=
  ⟨⟨by decide, by decide⟩,
    C4_match_question wR wPool4 (by decide) (by decide)⟩

/-- Witness for C5 at a concrete two-pair question and submission. -/
theorem C5_match_grading_witness :
    ((wCP.map Prod.fst).Nodup ∧ (wCP.map Prod.fst).Nodup ∧
      ∀ k ∈ wCP.map Prod.fst, k ∈ wCP.map Prod.fst) ∧
    (gradeMatch wCP wCP = true ↔
      (wCP.length = wCP.length ∧ ∀ p ∈ wCP, wCP.lookup p.1 = some p.2)) :=
  ⟨⟨by decide, by decide, by decide⟩,
    C5_match_grading wCP wCP (by decide) (by decide) (by decide)⟩

/-- Witness for C6 at a concrete one-question session answering wrongly. -/
theorem C6_quiz_completion_witness :
    (wQuizState.currentIndex < wQuizState.shuffledQuestions.length ∧
      ¬ (wQuizState.currentIndex + 1 <
        wQuizState.shuffledQuestions.length) ∧
      (wQuizState.wrongAnswers.map TermData.term).Nodup) ∧
    (∃ s2, handleNextQuestion "meaningMatch" false wQuizState = some (s2,
        some ("meaningMatch",
          wQuizState.shuffledQuestions.length - s2.wrongAnswers.length,
          wQuizState.shuffledQuestions.length)) ∧
      s2.gameState = GameState.results ∧
      (s2.wrongAnswers.map TermData.term).Nodup ∧
      s2.shuffledQuestions = wQuizState.shuffledQuestions ∧
      s2.wrongAnswers =
        (if false then wQuizState.wrongAnswers
         else if (wQuizState.wrongAnswers.find? (fun t => t.term ==
             wQuizState.shuffledQuestions[wQuizState.currentIndex].term)).isSome
           then wQuizState.wrongAnswers
         else wQuizState.wrongAnswers ++
           [wQuizState.shuffledQuestions[wQuizState.currentIndex]])) :=
  ⟨⟨by decide, by decide, by decide⟩,
    C6_quiz_completion "meaningMatch" false wQuizState (by decide) (by decide)
      (by decide)⟩

/-- Witness for C9 at a concrete unanswered written question. -/
theorem C9_unanswered_witness :
    wAnswers (AssessmentQuestion.written "w-0" "p" "m").qid = none ∧
    (gradeQuestion wAnswers (AssessmentQuestion.written "w-0" "p" "m") =
      Except.ok false ∧
    computeScore wAnswers (AssessmentQuestion.written "w-0" "p" "m" :: []) =
      computeScore wAnswers []) :=
  ⟨rfl, C9_unanswered wAnswers (AssessmentQuestion.written "w-0" "p" "m") []
    rfl⟩

/-- Witness for C10 at a concrete single-term input. -/
theorem C10_assessment_nonempty_witness :
    ([mkTerm "solo" "d"] ≠ ([] : List TermData) ∧
      ∀ t ∈ [mkTerm "solo" "d"], t.meanings ≠ []) ∧
    (∃ qs a, generateQuestionPool wR [mkTerm "solo" "d"] = Except.ok qs ∧
      ([mkTerm "solo" "d"] : List TermData).length ≤ qs.length ∧
      4 ≤ targetQuestionCount ([mkTerm "solo" "d"] : List TermData).length ∧
      generateAssessmentFromTerms wR [mkTerm "solo" "d"] = Except.ok a ∧
      a.questions ≠ [] ∧
      assessmentModalAborts (generateAssessmentFromTerms wR
        [mkTerm "solo" "d"]) = false) :=
  ⟨⟨by decide, by decide⟩,
    C10_assessment_nonempty wR [mkTerm "solo" "d"] (by decide) (by decide)⟩
